import Mathlib

/-!
Verification of the BitTipBot faucet-statistics scripts
(`faucet_stats.py` and `get_faucet_stats.py`).

Strings are modelled as `List Char`; Python dictionaries built with
`collections.defaultdict(int)` are modelled as insertion-ordered
association lists over `List Char` keys with integer values, exactly
mirroring `d[k] += v` (update the existing entry in place, or append a
fresh entry initialised to 0 before adding).
-/

namespace BitTip

/-- A Python string, modelled as its list of characters. -/
abbrev Str := List Char

/-- An insertion-ordered Python dict from usernames to integer totals
(the representation behind `defaultdict(int)`). -/
abbrev Dict := List (Str × Int)

/-- `d[k] += v` on a `defaultdict(int)`: bump the first entry with key `k`,
or append `(k, 0 + v)` when the key is absent. -/
def addTo : Dict → Str → Int → Dict
  | [], k, v => [(k, v)]
  | (k', v') :: rest, k, v =>
    if k' = k then (k', v' + v) :: rest else (k', v') :: addTo rest k v

/-- Dictionary lookup defaulting to 0 (how `defaultdict(int)` reads and how
the spec treats absent keys). -/
def getD0 : Dict → Str → Int
  | [], _ => 0
  | (k', v') :: rest, k => if k' = k then v' else getD0 rest k

/-- `sum(d.values())`. -/
def sumVals (d : Dict) : Int :=
  (d.map Prod.snd).sum

/-- `d.keys()`. -/
def keysOf (d : Dict) : List Str :=
  d.map Prod.fst

/-- `pat` is a non-empty-position prefix test: does `s` start with `pat`? -/
def begWith : Str → Str → Bool
  | [], _ => true
  | _ :: _, [] => false
  | p :: ps, c :: cs => p = c && begWith ps cs

/-- Python's `pat in s` substring test. -/
def hasSub (pat : Str) : Str → Bool
  | [] => begWith pat []
  | c :: rest => begWith pat (c :: rest) || hasSub pat rest

/-- Python's `s.lower()` (ASCII case folding as used on type tags/memos). -/
def lowerStr (s : Str) : Str :=
  s.map Char.toLower

/-- The literal `"faucet"`. -/
def faucetChars : Str := 'f' :: 'a' :: 'u' :: 'c' :: 'e' :: 't' :: []

/-- A row of the `transactions` table as returned by the SQLite reader in
`faucet_stats.py` (the SELECT aliases `from_user`/`to_user` to
`sender`/`recipient`). `success` is the stored integer flag; `time` is the
record's timestamp in seconds. -/
structure Tx where
  sender : String
  recipient : String
  amount : Int
  time : Int
  type : String
  success : Int
  memo : String
deriving DecidableEq

/-- `tx.sender` as a character list. -/
def Tx.senderS (t : Tx) : Str := t.sender.toList

/-- `tx.recipient` as a character list. -/
def Tx.recipientS (t : Tx) : Str := t.recipient.toList

/-- The body of the per-transaction loop of
`faucet_stats.analyze_faucet_transactions` (lines 101-115): skip falsy
`success`, then when `"faucet" in tx['type'].lower()` accumulate into the
three dictionaries in source order. -/
def processTx (st : Dict × Dict × Dict) (tx : Tx) : Dict × Dict × Dict :=
  if tx.success = 0 then st
  else if hasSub faucetChars (lowerStr tx.type.toList) then
    (addTo st.1 tx.senderS tx.amount,
     addTo st.2.1 tx.recipientS tx.amount,
     addTo (addTo st.2.2 tx.senderS tx.amount) tx.recipientS (-tx.amount))
  else st

/-- `faucet_stats.analyze_faucet_transactions`, parameterised by the record
list the SQLite reader produced: a single left fold of `processTx` starting
from three empty dictionaries, returning
`(distributions, receipts, balance)`. -/
def analyze_faucet_transactions (txs : List Tx) : Dict × Dict × Dict :=
  txs.foldl processTx ([], [], [])

/-! ### The SQLite source reader (`faucet_stats.get_transactions_from_sqlite`) -/

/-- A `sqlite3.Error` raised while executing the query. -/
structure SqErr where
  msg : Str
deriving DecidableEq

/-- The ambient state `get_transactions_from_sqlite` reads: whether the
database file exists, the current wall clock (epoch seconds, the integral
value of `datetime.now().timestamp()`), the rows of the `transactions`
table, and the `sqlite3.Error` the query raises, if any. The `connect`
call itself (made outside the `try` block on an existing file) is modelled
as succeeding. -/
structure SqliteEnv where
  fileOk : Bool
  now : Int
  table : List Tx
  queryErr : Option SqErr

/-- The WHERE clause of the query (lines 42-44):
`type = 'faucet' AND success = 1 AND time >= datetime(?, 'unixepoch')`
with parameter `int((now - timedelta(days=7)).timestamp()) = now - 604800`,
taking the `time` column to hold timestamps comparable with the cutoff. -/
def sqlWhere (now : Int) (r : Tx) : Bool :=
  (r.type == "faucet") && (r.success == 1) && decide (now - 604800 ≤ r.time)

/-- `faucet_stats.get_transactions_from_sqlite`: `[]` when the database
file is missing, `[]` when the query raises `sqlite3.Error`, otherwise the
table rows selected by the WHERE clause. -/
def get_transactions_from_sqlite (env : SqliteEnv) : List Tx :=
  if env.fileOk = false then []
  else
    match env.queryErr with
    | some _ => []
    | none => env.table.filter (sqlWhere env.now)

/-! ### The LNbits script (`get_faucet_stats.py`) -/

namespace Api

/-- A connection-level failure of `requests.get` (e.g.
`requests.exceptions.ConnectionError`): raised by the HTTP call itself,
before any status code exists. -/
structure ConnErr where
  msg : Str
deriving DecidableEq

/-- A user object returned by the usermanager API. -/
structure UserJ where
  id : Str
deriving DecidableEq

/-- A wallet object: id, display name, admin key. -/
structure Wallet where
  id : Str
  name : Str
  adminkey : Str
deriving DecidableEq

/-- A payment object: `memo` is `payment.get("memo", "")`, `out` is
`payment.get("out", False)`, `time` is the epoch timestamp, `amount` is in
millisats. -/
structure Payment where
  memo : Str
  time : Int
  amount : Int
  out : Bool
deriving DecidableEq

/-- `get_faucet_stats.get_users`. The argument is the outcome of
`requests.get(url, headers)`: either a raised connection error or a
response with a status code and parsed JSON body. The source has no
`try`/`except`, so a raised error propagates; a non-200 status is logged
and turned into `[]`. -/
def get_users (resp : Except ConnErr (Nat × List UserJ)) :
    Except ConnErr (List UserJ) :=
  match resp with
  | .error e => .error e
  | .ok (status, body) => if status ≠ 200 then .ok [] else .ok body

/-- `get_faucet_stats.get_user_wallets`, same shape as `get_users`. -/
def get_user_wallets (userId : Str)
    (resp : Except ConnErr (Nat × List Wallet)) :
    Except ConnErr (List Wallet) :=
  match userId, resp with
  | _, .error e => .error e
  | _, .ok (status, body) => if status ≠ 200 then .ok [] else .ok body

/-- `get_faucet_stats.get_wallet_transactions`, same shape as
`get_users` (the wallet argument only feeds the request headers and the
log message). -/
def get_wallet_transactions (wallet : Wallet)
    (resp : Except ConnErr (Nat × List Payment)) :
    Except ConnErr (List Payment) :=
  match wallet, resp with
  | _, .error e => .error e
  | _, .ok (status, body) => if status ≠ 200 then .ok [] else .ok body

/-- Python `s.split("(@")`: the maximal segments of `s` between
non-overlapping occurrences of the separator `"(@"`, scanned left to
right. -/
def splitPA : Str → List Str
  | [] => [[]]
  | [c] => [[c]]
  | c1 :: c2 :: rest =>
    if c1 = '(' ∧ c2 = '@' then [] :: splitPA rest
    else
      match splitPA (c2 :: rest) with
      | [] => [[c1]]
      | s :: ss => (c1 :: s) :: ss

/-- Python `"(@" in s`. -/
def containsPA : Str → Bool
  | [] => false
  | [_] => false
  | c1 :: c2 :: rest =>
    if c1 = '(' ∧ c2 = '@' then true else containsPA (c2 :: rest)

/-- The suffix of `s` after the first occurrence of `"(@"` (`[]` when the
separator does not occur). Spec-level description used to characterise
`splitPA`. -/
def afterPA : Str → Str
  | [] => []
  | [_] => []
  | c1 :: c2 :: rest =>
    if c1 = '(' ∧ c2 = '@' then rest else afterPA (c2 :: rest)

/-- The prefix of `s` before the first occurrence of `"(@"` (all of `s`
when the separator does not occur). Spec-level description used to
characterise `splitPA`. -/
def beforePA : Str → Str
  | [] => []
  | [c] => [c]
  | c1 :: c2 :: rest =>
    if c1 = '(' ∧ c2 = '@' then [] else c1 :: beforePA (c2 :: rest)

/-- Python `s.strip(")")`: drop `')'` characters from both ends. -/
def stripParen (s : Str) : Str :=
  ((s.dropWhile (· = ')')).reverse.dropWhile (· = ')')).reverse

/-- `get_faucet_stats.get_telegram_username`: when the wallet name contains
both `"(@"` and `")"`, return `name.split("(@")[1].strip(")")`; otherwise
return the name unchanged. The `Option` return type mirrors the source's
`Optional[str]` annotation. -/
def get_telegram_username (wallet_name : Str) : Option Str :=
  if containsPA wallet_name && wallet_name.contains ')' then
    some (stripParen ((splitPA wallet_name).getD 1 []))
  else
    some wallet_name

/-- `all_transactions.get(wallet_id, [])`. -/
def lookupTxs : List (Str × List Payment) → Str → List Payment
  | [], _ => []
  | (k, v) :: rest, wid => if k = wid then v else lookupTxs rest wid

/-- The body of the per-payment loop of
`get_faucet_stats.analyze_faucet_transactions` (lines 72-87): skip
payments whose memo does not contain `"faucet"`, skip payments older than
365 days, then credit `distributions[username]` for an outgoing payment
and `receipts[username]` otherwise. -/
def processPayment (now : Int) (username : Str) (st : Dict × Dict)
    (p : Payment) : Dict × Dict :=
  if hasSub faucetChars (lowerStr p.memo) = false then st
  else if p.time < now - 365 * 86400 then st
  else if p.out then (addTo st.1 username p.amount, st.2)
  else (st.1, addTo st.2 username p.amount)

/-- `get_faucet_stats.analyze_faucet_transactions`: iterate the wallets in
dict order, derive each wallet's username via `get_telegram_username`
(`.getD []` reflects Python using the returned value directly, which is
never `None`), and fold the wallet's payments. Returns
`(distributions, receipts)`. -/
def analyze_faucet_transactions (now : Int)
    (all_transactions : List (Str × List Payment))
    (all_wallets : List (Str × Wallet)) : Dict × Dict :=
  all_wallets.foldl
    (fun st w =>
      (lookupTxs all_transactions w.1).foldl
        (processPayment now ((get_telegram_username w.2.name).getD [])) st)
    ([], [])

end Api

/-! ### The reporter (`format_stats` in both scripts) -/

/-- One step of the stable descending insertion modelling Python's
`sorted(stats.items(), key=lambda x: x[1], reverse=True)`: place `x`
before the first later element whose value does not exceed it. -/
def insertDescV (x : Str × Int) : Dict → Dict
  | [] => [x]
  | y :: ys => if y.2 ≤ x.2 then x :: y :: ys else y :: insertDescV x ys

/-- `sorted(stats.items(), key=lambda x: x[1], reverse=True)`: a stable
sort by value descending. -/
def sortDescV : Dict → Dict
  | [] => []
  | x :: xs => insertDescV x (sortDescV xs)

/-- Comma-group a least-significant-first digit string in blocks of
three. -/
def group3 : Str → Str
  | a :: b :: c :: d :: rest => a :: b :: c :: ',' :: group3 (d :: rest)
  | l => l

/-- Python `f"{n:,}"` for a natural number: decimal digits with thousands
separators. -/
def renderNat (n : Nat) : Str :=
  (group3 (Nat.toDigits 10 n).reverse).reverse

/-- Python `f"{n:,.0f}"` for an integer-valued amount. -/
def renderInt (n : Int) : Str :=
  if n < 0 then '-' :: renderNat n.natAbs else renderNat n.toNat

/-- The header line `f"\n{title}:"` opening every report. -/
def headerLine (title : Str) : Str :=
  '\n' :: (title ++ [':'])

/-- A per-user line of `faucet_stats.format_stats`:
`f"  {username}: {sats:,.0f} sats"` with `sats = amount` (already in
sats). -/
def lineFS (u : Str) (a : Int) : Str :=
  ' ' :: ' ' :: (u ++ [':', ' '] ++ renderInt a ++ [' ', 's', 'a', 't', 's'])

/-- `faucet_stats.format_stats` as the `result` list of lines it builds
(the source returns `"\n".join(result)`): the header line followed by one
line per entry in value-descending order. -/
def format_stats (stats : Dict) (title : Str) : List Str :=
  headerLine title :: (sortDescV stats).map (fun p => lineFS p.1 p.2)

/-- Round `a / b` (with `b > 0`) to the nearest integer, ties to even:
the rounding Python's `f"{x:,.0f}"` applies to `amount / 1000`, modelled
exactly on rationals. -/
def rndHE (a b : Int) : Int :=
  let q := a / b
  let r := a - q * b
  if 2 * r < b then q
  else if b < 2 * r then q + 1
  else if q % 2 = 0 then q else q + 1

/-- A per-user line of `get_faucet_stats.format_stats`:
`f"  {username}: {sats:,.0f} sats"` with `sats = amount / 1000`
(millisats to sats). -/
def lineApi (u : Str) (a : Int) : Str :=
  ' ' :: ' ' :: (u ++ [':', ' '] ++ renderInt (rndHE a 1000) ++ [' ', 's', 'a', 't', 's'])

/-- `get_faucet_stats.format_stats` as its `result` list of lines: same
header and ordering as the SQLite script's reporter, millisat scaling in
the rendering only. -/
def format_statsApi (stats : Dict) (title : Str) : List Str :=
  headerLine title :: (sortDescV stats).map (fun p => lineApi p.1 p.2)

end BitTip

namespace BitTip

/-! ### Concrete sample data used in witnesses and counterexamples -/

/-- Record "A sends 100 to B", passing, type `faucet`, at time 0. -/
def txAB : Tx := ⟨"A", "B", 100, 0, "faucet", 1, ""⟩

/-- Record "B sends 50 to C", passing, type `faucet`, at time 0. -/
def txBC : Tx := ⟨"B", "C", 50, 0, "faucet", 1, ""⟩

/-- A passing faucet record whose timestamp (2000000) lies after the
current time of `envFuture` (1000000). -/
def txFuture : Tx := ⟨"A", "B", 10, 2000000, "faucet", 1, ""⟩

/-- An intact database whose only record is future-dated. -/
def envFuture : SqliteEnv := ⟨true, 1000000, [txFuture], none⟩

/-- A passing faucet record 1000 seconds old at `envRecent`'s clock. -/
def txRecent : Tx := ⟨"A", "B", 10, 999000, "faucet", 1, ""⟩

/-- An intact database holding `txRecent`. -/
def envRecent : SqliteEnv := ⟨true, 1000000, [txRecent], none⟩

/-- An outgoing (`out = True`) payment of 100 with memo `"faucet"` at
time 0. -/
def pOut : Api.Payment := ⟨faucetChars, 0, 100, true⟩

/-- A wallet named `"123 (@alice)"`. -/
def wAlice : Api.Wallet := ⟨"w1".toList, "123 (@alice)".toList, "k".toList⟩

/-- A sample connection error. -/
def cerr0 : Api.ConnErr := ⟨[]⟩

/-- A wallet name containing the separator `"(@"` twice: `"a(@b(@c)"`. -/
def nameTwo : Str := "a(@b(@c)".toList

/-- A mapping with two users tied at amount 5. -/
def tieDict : Dict := [("a".toList, 5), ("b".toList, 5)]

/-! ### Helper lemmas about the dictionary operations -/

/-- Reading back after `d[k] += v`: the value at `u` gains `v` exactly when
`u = k`. -/
theorem getD0_addTo (d : Dict) (k u : Str) (v : Int) :
    getD0 (addTo d k v) u = getD0 d u + (if k = u then v else 0) := by
  induction d with
  | nil =>
    by_cases h : k = u <;> simp [addTo, getD0, h]
  | cons p rest ih =>
    obtain ⟨k', v'⟩ := p
    by_cases h1 : k' = k
    · subst h1
      by_cases h2 : k' = u <;> simp [addTo, getD0, h2]
    · by_cases h2 : k' = u
      · have hk : ¬ k = u := fun h => h1 (h2.trans h.symm)
        have hk' : ¬ u = k := fun h => hk h.symm
        simp [addTo, getD0, h1, h2, hk, hk']
      · simp [addTo, getD0, h1, h2, ih]

/-- `d[k] += v` raises `sum(d.values())` by exactly `v`. -/
theorem sumVals_addTo (d : Dict) (k : Str) (v : Int) :
    sumVals (addTo d k v) = sumVals d + v := by
  induction d with
  | nil => simp [addTo, sumVals]
  | cons p rest ih =>
    obtain ⟨k', v'⟩ := p
    by_cases h1 : k' = k <;> simp [addTo, sumVals, h1] <;>
      simp [sumVals] at ih <;> omega

/-- The key set after `d[k] += v` is the old key set plus `k`. -/
theorem mem_keysOf_addTo (d : Dict) (k u : Str) (v : Int) :
    u ∈ keysOf (addTo d k v) ↔ u ∈ keysOf d ∨ u = k := by
  induction d with
  | nil => simp [addTo, keysOf, eq_comm]
  | cons p rest ih =>
    obtain ⟨k', v'⟩ := p
    by_cases h1 : k' = k
    · subst h1
      simp [addTo, keysOf]
      tauto
    · simp [addTo, keysOf, h1] at ih ⊢
      tauto

/-- A left fold preserves any invariant its step preserves. -/
theorem foldl_inv {α σ : Type _} (f : σ → α → σ) (P : σ → Prop)
    (hstep : ∀ s a, P s → P (f s a)) :
    ∀ (l : List α) (s : σ), P s → P (l.foldl f s) := by
  intro l
  induction l with
  | nil => intro s h; exact h
  | cons a l ih => intro s h; exact ih _ (hstep s a h)

/-- Each record either leaves the whole accumulator state unchanged or
performs the full four-way update of the source loop. -/
theorem processTx_cases (st : Dict × Dict × Dict) (tx : Tx) :
    processTx st tx = st ∨
    processTx st tx =
      (addTo st.1 tx.senderS tx.amount,
       addTo st.2.1 tx.recipientS tx.amount,
       addTo (addTo st.2.2 tx.senderS tx.amount) tx.recipientS (-tx.amount)) := by
  unfold processTx
  split_ifs <;> simp

/-- Balance relation carried through the whole fold: at every state reached
by `analyze_faucet_transactions`, `balance[u] = distributed[u] - received[u]`
with absent keys read as `0`. -/
theorem bal_eq_getD0 (txs : List Tx) (u : Str) :
    getD0 (analyze_faucet_transactions txs).2.2 u =
      getD0 (analyze_faucet_transactions txs).1 u -
      getD0 (analyze_faucet_transactions txs).2.1 u := by
  unfold analyze_faucet_transactions
  refine foldl_inv processTx
    (fun st => ∀ w, getD0 st.2.2 w = getD0 st.1 w - getD0 st.2.1 w)
    ?_ txs ([], [], []) (fun w => rfl) u
  intro s tx hP w
  rcases processTx_cases s tx with h | h <;> rw [h]
  · exact hP w
  · simp only [getD0_addTo]
    have hw := hP w
    by_cases hs : tx.senderS = w <;> by_cases hr : tx.recipientS = w <;>
      simp [hs, hr] <;> omega

end BitTip

namespace BitTip

/-! ### Helper lemmas about the reporter's sort -/

/-- Inserting an element leaves either it or the old head at the front. -/
theorem headOpt_insertDescV (x : Str × Int) (l : Dict) :
    (insertDescV x l).head? = some x ∨ (insertDescV x l).head? = l.head? := by
  cases l with
  | nil => left; rfl
  | cons y ys =>
    unfold insertDescV
    split_ifs <;> simp

/-- Descending insertion preserves the value-descending chain. -/
theorem chain_insertDescV (x : Str × Int) :
    ∀ l : Dict, List.Chain' (fun a b : Int => b ≤ a) (l.map Prod.snd) →
      List.Chain' (fun a b : Int => b ≤ a) ((insertDescV x l).map Prod.snd) := by
  intro l
  induction l with
  | nil => intro _; simp [insertDescV]
  | cons y ys ih =>
    intro h
    have h0 := h
    rw [List.map_cons, List.chain'_cons'] at h0
    obtain ⟨hhd, htl⟩ := h0
    unfold insertDescV
    by_cases hc : y.2 ≤ x.2
    · rw [if_pos hc, List.map_cons, List.chain'_cons']
      refine ⟨?_, by simpa using h⟩
      intro b hb
      rw [List.map_cons, List.head?_cons, Option.mem_some_iff] at hb
      omega
    · rw [if_neg hc, List.map_cons, List.chain'_cons']
      refine ⟨?_, ih htl⟩
      intro b hb
      rw [List.head?_map] at hb
      rcases headOpt_insertDescV x ys with h1 | h1
      · rw [h1] at hb
        simp at hb
        omega
      · rw [h1, ← List.head?_map] at hb
        exact hhd b hb

/-- The sort underlying both reporters yields value-descending output. -/
theorem chain_sortDescV (l : Dict) :
    List.Chain' (fun a b : Int => b ≤ a) ((sortDescV l).map Prod.snd) := by
  induction l with
  | nil => simp [sortDescV]
  | cons x xs ih => exact chain_insertDescV x _ ih

/-! ### Helper lemmas about `split("(@")` -/

/-- `s.split("(@")` is never the empty list. -/
theorem splitPA_ne_nil : ∀ s : Str, Api.splitPA s ≠ [] := by
  intro s
  induction s using Api.splitPA.induct with
  | case1 => simp [Api.splitPA]
  | case2 c => simp [Api.splitPA]
  | case3 c1 c2 rest h ih => simp [Api.splitPA, h]
  | case4 c1 c2 rest h hx ih => exact absurd hx ih
  | case5 c1 c2 rest h hd tl hx ih => simp [Api.splitPA, h, hx]

/-- The first element of `s.split("(@")` is the prefix of `s` before the
first separator. -/
theorem splitPA_head : ∀ s : Str, (Api.splitPA s).getD 0 [] = Api.beforePA s := by
  intro s
  induction s using Api.splitPA.induct with
  | case1 => rfl
  | case2 c => rfl
  | case3 c1 c2 rest h ih => simp [Api.splitPA, Api.beforePA, h]
  | case4 c1 c2 rest h hx ih => exact absurd hx (splitPA_ne_nil _)
  | case5 c1 c2 rest h hd tl hx ih =>
    rw [hx] at ih
    simp only [Api.splitPA, if_neg h, hx]
    simp only [List.getD_cons_zero] at ih ⊢
    simp [Api.beforePA, h, ih]

/-- The second element of `s.split("(@")`, when the separator occurs, is
the segment strictly between the first separator and the next one (or the
end of the string). -/
theorem splitPA_second : ∀ s : Str, Api.containsPA s = true →
    (Api.splitPA s).getD 1 [] = Api.beforePA (Api.afterPA s) := by
  intro s
  induction s using Api.splitPA.induct with
  | case1 => intro h; simp [Api.containsPA] at h
  | case2 c => intro h; simp [Api.containsPA] at h
  | case3 c1 c2 rest h ih =>
    intro _
    simp only [Api.splitPA, if_pos h, List.getD_cons_succ]
    rw [splitPA_head rest]
    simp [Api.afterPA, h]
  | case4 c1 c2 rest h hx ih => exact absurd hx (splitPA_ne_nil _)
  | case5 c1 c2 rest h hd tl hx ih =>
    intro hc
    have hc2 : Api.containsPA (c2 :: rest) = true := by
      simpa [Api.containsPA, h] using hc
    have := ih hc2
    rw [hx] at this
    simp only [Api.splitPA, if_neg h, hx, List.getD_cons_succ] at this ⊢
    rw [this]
    simp [Api.afterPA, h]

/-! ### Helper lemmas about the LNbits aggregation -/

/-- With no fetched transactions every wallet contributes nothing, so the
API aggregator returns two empty dictionaries. -/
theorem analyzeApi_empty (now : Int) (ws : List (Str × Api.Wallet)) :
    Api.analyze_faucet_transactions now [] ws = ([], []) := by
  unfold Api.analyze_faucet_transactions
  have key : ∀ (l : List (Str × Api.Wallet)) (st : Dict × Dict),
      l.foldl (fun st w => (Api.lookupTxs [] w.1).foldl
        (Api.processPayment now ((Api.get_telegram_username w.2.name).getD [])) st) st = st := by
    intro l
    induction l with
    | nil => intro st; rfl
    | cons w l ih => intro st; exact ih st
  exact key ws ([], [])

end BitTip

namespace BitTip

/-! ### Claim theorems -/

/-- C1: "For every input record set processed by the aggregator, the sum of
all values in the distributed mapping equals the sum of all values in the
received mapping." Amount conservation holds for the SQLite-script
aggregator: every processed record adds its amount to both sides or to
neither. (As frozen the claim also covers the LNbits aggregator, where it
fails; see the counterexample.) -/
theorem c1_sum_conserved :
    ∀ txs : List Tx,
      sumVals (analyze_faucet_transactions txs).1 =
        sumVals (analyze_faucet_transactions txs).2.1 := by
  intro txs
  unfold analyze_faucet_transactions
  refine foldl_inv processTx (fun st => sumVals st.1 = sumVals st.2.1)
    ?_ txs ([], [], []) rfl
  intro s tx hP
  rcases processTx_cases s tx with h | h <;> rw [h]
  · exact hP
  · simp only [sumVals_addTo]
    omega

/-- C1 counterexample: the LNbits aggregator credits a single outgoing
faucet payment of 100 to `distributions` only, so the two value sums
differ (100 on the distributed side, 0 on the received side). -/
theorem c1_api_counterexample :
    sumVals (Api.analyze_faucet_transactions 0
      [("w1".toList, [pOut])] [("w1".toList, wAlice)]).1 = 100 ∧
    sumVals (Api.analyze_faucet_transactions 0
      [("w1".toList, [pOut])] [("w1".toList, wAlice)]).2 = 0 ∧
    sumVals (Api.analyze_faucet_transactions 0
      [("w1".toList, [pOut])] [("w1".toList, wAlice)]).1 ≠
      sumVals (Api.analyze_faucet_transactions 0
        [("w1".toList, [pOut])] [("w1".toList, wAlice)]).2 := by
  decide

/-- C2: for every input record list and every user appearing in any of the
three produced mappings, `balance[u] = distributed[u] - received[u]`, with
a user absent from a mapping counting as zero. -/
theorem c2_balance_eq (txs : List Tx) (u : Str)
    (_h : u ∈ keysOf (analyze_faucet_transactions txs).1 ∨
         u ∈ keysOf (analyze_faucet_transactions txs).2.1 ∨
         u ∈ keysOf (analyze_faucet_transactions txs).2.2) :
    getD0 (analyze_faucet_transactions txs).2.2 u =
      getD0 (analyze_faucet_transactions txs).1 u -
        getD0 (analyze_faucet_transactions txs).2.1 u :=
  bal_eq_getD0 txs u

/-- Witness for C2 at the single record `txAB` and user `A`. -/
theorem c2_balance_eq_witness :
    ("A".toList ∈ keysOf (analyze_faucet_transactions [txAB]).1 ∨
     "A".toList ∈ keysOf (analyze_faucet_transactions [txAB]).2.1 ∨
     "A".toList ∈ keysOf (analyze_faucet_transactions [txAB]).2.2) ∧
    getD0 (analyze_faucet_transactions [txAB]).2.2 "A".toList =
      getD0 (analyze_faucet_transactions [txAB]).1 "A".toList -
        getD0 (analyze_faucet_transactions [txAB]).2.1 "A".toList :=
  ⟨by decide, c2_balance_eq [txAB] ("A".toList) (by decide)⟩

/-- C3 (amended): in the SQLite script every record updates `distributions`
and `receipts` atomically together or leaves both unchanged; in the LNbits
script every payment updates exactly one of the two (by its direction
flag) or neither — never both. -/
theorem c3_both_or_neither :
    (∀ (st : Dict × Dict × Dict) (tx : Tx),
      ((processTx st tx).1 = addTo st.1 tx.senderS tx.amount ∧
       (processTx st tx).2.1 = addTo st.2.1 tx.recipientS tx.amount) ∨
      ((processTx st tx).1 = st.1 ∧ (processTx st tx).2.1 = st.2.1)) ∧
    (∀ (now : Int) (u : Str) (st : Dict × Dict) (p : Api.Payment),
      ((Api.processPayment now u st p).1 = addTo st.1 u p.amount ∧
       (Api.processPayment now u st p).2 = st.2) ∨
      ((Api.processPayment now u st p).1 = st.1 ∧
       (Api.processPayment now u st p).2 = addTo st.2 u p.amount) ∨
      ((Api.processPayment now u st p).1 = st.1 ∧
       (Api.processPayment now u st p).2 = st.2)) := by
  constructor
  · intro st tx
    rcases processTx_cases st tx with h | h
    · right; rw [h]; exact ⟨rfl, rfl⟩
    · left; rw [h]; exact ⟨rfl, rfl⟩
  · intro now u st p
    unfold Api.processPayment
    split_ifs <;> simp

/-- C3 counterexample: the LNbits per-payment step applied to an outgoing
faucet payment adds to the distributed side while leaving the received
side untouched — a record contributing to exactly one side. -/
theorem c3_api_counterexample :
    Api.processPayment 0 ("alice".toList) ([], []) pOut =
      ([("alice".toList, 100)], []) ∧
    ([("alice".toList, 100)] : Dict) ≠ [] := by
  decide

/-- C4 (amended): both reporters render the header line followed by the
entries in value-descending order, non-strictly: consecutive line amounts
satisfy `next ≤ previous` (ties are possible, so "strictly descending"
fails; see the counterexample). -/
theorem c4_report_sorted :
    ∀ (stats : Dict) (title : Str),
      format_stats stats title =
        headerLine title :: (sortDescV stats).map (fun p => lineFS p.1 p.2) ∧
      format_statsApi stats title =
        headerLine title :: (sortDescV stats).map (fun p => lineApi p.1 p.2) ∧
      List.Chain' (fun a b : Int => b ≤ a) ((sortDescV stats).map Prod.snd) :=
  fun stats _ => ⟨rfl, rfl, chain_sortDescV stats⟩

/-- C4 counterexample: on a mapping with two users tied at amount 5 the
report has two consecutive lines with equal amounts, so the lines are not
sorted strictly descending. -/
theorem c4_tie_counterexample :
    format_stats tieDict [] =
      [headerLine [], lineFS ("a".toList) 5, lineFS ("b".toList) 5] ∧
    ¬ List.Chain' (fun a b : Int => b < a) ((sortDescV tieDict).map Prod.snd) := by
  constructor
  · decide
  · intro hch
    have hev : (sortDescV tieDict).map Prod.snd = [5, 5] := by decide
    rw [hev] at hch
    exact absurd (List.chain'_cons.mp hch).1 (by omega)

/-- C5: with no input records every produced report is exactly its header
line — all three SQLite-script reports, and both LNbits reports when no
transactions were fetched. -/
theorem c5_empty_reports :
    ∀ (t1 t2 t3 tA tB : Str) (now : Int) (ws : List (Str × Api.Wallet)),
      format_stats (analyze_faucet_transactions []).1 t1 = [headerLine t1] ∧
      format_stats (analyze_faucet_transactions []).2.1 t2 = [headerLine t2] ∧
      format_stats (analyze_faucet_transactions []).2.2 t3 = [headerLine t3] ∧
      format_statsApi (Api.analyze_faucet_transactions now [] ws).1 tA =
        [headerLine tA] ∧
      format_statsApi (Api.analyze_faucet_transactions now [] ws).2 tB =
        [headerLine tB] := by
  intro t1 t2 t3 tA tB now ws
  have hapi := analyzeApi_empty now ws
  refine ⟨rfl, rfl, rfl, ?_, ?_⟩ <;> rw [hapi] <;> rfl

/-- C6: on the two passing records A→B 100 and B→C 50 the aggregator
returns distributed = {A: 100, B: 50}, received = {B: 100, C: 50} and
balance = {A: 100, B: -50, C: -50}. -/
theorem c6_example_records :
    analyze_faucet_transactions [txAB, txBC] =
      ([("A".toList, 100), ("B".toList, 50)],
       [("B".toList, 100), ("C".toList, 50)],
       [("A".toList, 100), ("B".toList, -50), ("C".toList, -50)]) := by
  decide

end BitTip

namespace BitTip

/-- C7 (amended): the SQLite reader returns `[]` on a missing database
file or on a query error without raising; each HTTP fetcher returns `[]`
on a non-2xx response; but a connection error raised by the HTTP call
itself propagates to the caller of every fetcher (there is no
`try`/`except` around `requests.get`). -/
theorem c7_reader_failures :
    (∀ e : SqliteEnv, e.fileOk = false → get_transactions_from_sqlite e = []) ∧
    (∀ (e : SqliteEnv) (s : SqErr), e.queryErr = some s →
       get_transactions_from_sqlite e = []) ∧
    (∀ (code : Nat) (body : List Api.UserJ), code ≠ 200 →
       Api.get_users (Except.ok (code, body)) = Except.ok []) ∧
    (∀ c : Api.ConnErr, Api.get_users (Except.error c) = Except.error c) ∧
    (∀ (uid : Str) (code : Nat) (body : List Api.Wallet), code ≠ 200 →
       Api.get_user_wallets uid (Except.ok (code, body)) = Except.ok []) ∧
    (∀ (uid : Str) (c : Api.ConnErr),
       Api.get_user_wallets uid (Except.error c) = Except.error c) ∧
    (∀ (w : Api.Wallet) (code : Nat) (body : List Api.Payment), code ≠ 200 →
       Api.get_wallet_transactions w (Except.ok (code, body)) = Except.ok []) ∧
    (∀ (w : Api.Wallet) (c : Api.ConnErr),
       Api.get_wallet_transactions w (Except.error c) = Except.error c) := by
  refine ⟨?_, ?_, ?_, ?_, ?_, ?_, ?_, ?_⟩
  · intro e he
    simp [get_transactions_from_sqlite, he]
  · intro e s he
    by_cases hf : e.fileOk = false <;>
      simp [get_transactions_from_sqlite, he, hf]
  · intro code body hc
    simp [Api.get_users, hc]
  · intro c; rfl
  · intro uid code body hc
    simp [Api.get_user_wallets, hc]
  · intro uid c; rfl
  · intro w code body hc
    simp [Api.get_wallet_transactions, hc]
  · intro w c; rfl

/-- Witness for C7 at concrete environments: missing file, query error,
HTTP 500 responses, and connection errors. -/
theorem c7_reader_failures_witness :
    get_transactions_from_sqlite ⟨false, 0, [], none⟩ = [] ∧
    get_transactions_from_sqlite ⟨true, 0, [], some ⟨[]⟩⟩ = [] ∧
    Api.get_users (Except.ok (500, [])) = Except.ok [] ∧
    Api.get_users (Except.error cerr0) = Except.error cerr0 ∧
    Api.get_user_wallets [] (Except.ok (500, [])) = Except.ok [] ∧
    Api.get_user_wallets [] (Except.error cerr0) = Except.error cerr0 ∧
    Api.get_wallet_transactions wAlice (Except.ok (500, [])) = Except.ok [] ∧
    Api.get_wallet_transactions wAlice (Except.error cerr0) =
      Except.error cerr0 :=
  ⟨c7_reader_failures.1 _ rfl,
   c7_reader_failures.2.1 _ ⟨[]⟩ rfl,
   c7_reader_failures.2.2.1 500 [] (by decide),
   c7_reader_failures.2.2.2.1 cerr0,
   c7_reader_failures.2.2.2.2.1 [] 500 [] (by decide),
   c7_reader_failures.2.2.2.2.2.1 [] cerr0,
   c7_reader_failures.2.2.2.2.2.2.1 wAlice 500 [] (by decide),
   c7_reader_failures.2.2.2.2.2.2.2 wAlice cerr0⟩

/-- C7 counterexample: on a connection error the user fetcher does not
return an empty sequence — the failure escapes to the caller. -/
theorem c7_conn_counterexample :
    Api.get_users (Except.error cerr0) = Except.error cerr0 ∧
    Api.get_users (Except.error cerr0) ≠ Except.ok [] := by
  refine ⟨rfl, ?_⟩
  intro h
  exact Except.noConfusion h

/-- C8 (amended): on an intact database with a successful query, the
reader returns exactly the records with type tag `'faucet'`, success flag
1, and timestamp at least `now - 7 days` — with no upper bound, so
future-dated records are included (see the counterexample). -/
theorem c8_sqlite_filter (e : SqliteEnv) (r : Tx)
    (hf : e.fileOk = true) (hq : e.queryErr = none) :
    r ∈ get_transactions_from_sqlite e ↔
      r ∈ e.table ∧ r.type = "faucet" ∧ r.success = 1 ∧
        e.now - 604800 ≤ r.time := by
  simp [get_transactions_from_sqlite, hf, hq, List.mem_filter, sqlWhere,
    and_assoc]

/-- Witness for C8: the week-old record `txRecent` is returned from
`envRecent` and satisfies the filter. -/
theorem c8_sqlite_filter_witness :
    (envRecent.fileOk = true) ∧
    (txRecent ∈ get_transactions_from_sqlite envRecent ↔
      txRecent ∈ envRecent.table ∧ txRecent.type = "faucet" ∧
        txRecent.success = 1 ∧ envRecent.now - 604800 ≤ txRecent.time) :=
  ⟨rfl, c8_sqlite_filter envRecent txRecent rfl rfl⟩

/-- C8 counterexample: a passing faucet record dated after the current
time (outside "the last 7 days before the current time") is still
returned by the reader, because the query only bounds the timestamp from
below. -/
theorem c8_future_counterexample :
    get_transactions_from_sqlite envFuture = [txFuture] ∧
    envFuture.now < txFuture.time := by
  decide

/-- C9 (amended): `get_telegram_username` never returns an absent value;
when the name contains both `"(@"` and `")"` it returns the segment
strictly between the first `"(@"` and the next `"(@"` (or the end of the
string) with `')'` stripped from both ends — not everything after the
first `"(@"` (see the counterexample) — and otherwise it returns the name
unchanged. -/
theorem c9_username_extraction :
    ∀ s : Str,
      Api.get_telegram_username s =
        some (if Api.containsPA s && s.contains ')' then
                Api.stripParen (Api.beforePA (Api.afterPA s))
              else s) := by
  intro s
  unfold Api.get_telegram_username
  by_cases h : (Api.containsPA s && s.contains ')') = true
  · rw [if_pos h, if_pos h,
      splitPA_second s ((Bool.and_eq_true _ _).mp h).1]
  · rw [if_neg h, if_neg h]

/-- C9 counterexample: on the name `"a(@b(@c)"` (separator occurring
twice) the function returns `"b"`, not the `')'`-stripped text following
the first `"(@"` (which would be `"b(@c"`). -/
theorem c9_counterexample :
    Api.get_telegram_username nameTwo ≠
      some (Api.stripParen (Api.afterPA nameTwo)) ∧
    Api.containsPA nameTwo = true ∧
    nameTwo.contains ')' = true ∧
    Api.get_telegram_username nameTwo = some ("b".toList) := by
  decide

/-- C10: for every input record list, a user has a `balance` entry exactly
when they have a `distributions` entry or a `receipts` entry: the balance
key set is the union of the other two key sets. -/
theorem c10_balance_keys :
    ∀ (txs : List Tx) (u : Str),
      u ∈ keysOf (analyze_faucet_transactions txs).2.2 ↔
        u ∈ keysOf (analyze_faucet_transactions txs).1 ∨
          u ∈ keysOf (analyze_faucet_transactions txs).2.1 := by
  intro txs u
  unfold analyze_faucet_transactions
  refine foldl_inv processTx
    (fun st => ∀ w, w ∈ keysOf st.2.2 ↔ w ∈ keysOf st.1 ∨ w ∈ keysOf st.2.1)
    ?_ txs ([], [], []) ?_ u
  · intro s tx hP w
    rcases processTx_cases s tx with h | h <;> rw [h]
    · exact hP w
    · simp only [mem_keysOf_addTo]
      have hw := hP w
      tauto
  · intro w
    simp [keysOf]

end BitTip
